import Mathlib

/-!
# Verification of the taxi screenshot-stitching pipeline

Shallow embedding of the screenshot planner, the calibration resolvers, the
area validation, and the BlinkDiff comparison state machine of the taxi
WebDriver client, together with proofs of the specified properties.

Sources embedded (JavaScript):
* `lib/helpers/screenshot.js` — `Screenshot.prototype._validateArea`,
  `_gatherDocumentSections`, `_gatherViewPortSections`, `_takeScreenshot`,
  `takeRawScreenshot`.
* `lib/helpers/stitching.js` — `Stitching.prototype._needsStitchingExceptions`.
* `lib/helpers/devicePixelRatio.js` — `DevicePixelRatio.prototype._determineDevicePixelRatio`.
* `lib/comparison/blinkdiff.js` — `BlinkDiffComparison.prototype.compare`.

JavaScript numbers are modelled as `ℤ` where the program only ever holds
integral pixel values, and as `ℚ` where genuine fractions occur (device pixel
ratios, resolution budgets divided by a ratio, version numbers).  JavaScript
`Math.floor`/`Math.ceil` of a quotient of integers are modelled with `Int.fdiv`
(floor division); division by zero, which in JavaScript produces `Infinity`
and makes the surrounding loops run zero times or forever, is modelled
explicitly at each call site.
-/

deriving instance DecidableEq for Except

namespace Taxi

/-- JS `Math.floor(a / b)` for integers, `b ≠ 0` (callers handle `b = 0`). -/
def jsFloorDiv (a b : ℤ) : ℤ := Int.fdiv a b

/-- JS `Math.ceil(a / b)` for integers, `b ≠ 0` (callers handle `b = 0`). -/
def jsCeilDiv (a b : ℤ) : ℤ := -(Int.fdiv (-a) b)

/-- JS `Math.floor` on a (rational) number. -/
def jsFloor (q : ℚ) : ℤ := ⌊q⌋

/-- JS `Math.round` (round half towards positive infinity). -/
def jsRound (q : ℚ) : ℤ := ⌊q + 1/2⌋

/-- JS `String.prototype.toLowerCase` (character-wise lowering, which agrees
with the JS builtin on the ASCII browser names the code compares against). -/
def jsToLowerCase (s : String) : String := ⟨s.data.map Char.toLower⟩

/-- A rectangle size, as delivered by the `init` browser script
(`initData.document` and `initData.viewPort`). -/
structure Size where
  width : ℤ
  height : ℤ
deriving DecidableEq

/-- The part of the `screenshot.js` init-script payload the planner reads. -/
structure InitData where
  document : Size
  viewPort : Size
deriving DecidableEq

/-- A capture area `{x, y, width, height}` in document pixels. -/
structure Area where
  x : ℤ
  y : ℤ
  width : ℤ
  height : ℤ
deriving DecidableEq

/-- A planned sub-capture produced by `_gatherViewPortSections` (or the
single whole-section view-port of the non-stitching branch).  The `image`
slot of the source starts `undefined` at planning time and is only filled
during capture, so it is not part of the planning model. -/
structure ViewPort where
  x : ℤ
  y : ℤ
  width : ℤ
  height : ℤ
  index : ℕ
deriving DecidableEq

/-- A planned document section produced by `_gatherDocumentSections`. -/
structure Section where
  shift : Bool
  x : ℤ
  y : ℤ
  width : ℤ
  height : ℤ
  viewPorts : List ViewPort
deriving DecidableEq

/-- `Screenshot.prototype._validateArea` (lib/helpers/screenshot.js:374-402).
The source mutates `area` in place after two fatal checks; the mutation
sequence is modelled by state passing: each clamp reads the fields already
updated by the previous clamps, exactly as the source does. -/
def validateArea (area : Area) (initData : InitData) : Except String Area :=
  if area.width < 0 then
    Except.error ("Width of area to capture cannot be negative.")
  else if area.height < 0 then
    Except.error ("Height of area to capture cannot be negative.")
  else
    let x1 := if area.x < 0 then 0 else area.x
    let x2 := if x1 ≥ initData.document.width then initData.document.width - 1 else x1
    let y1 := if area.y < 0 then 0 else area.y
    let y2 := if y1 ≥ initData.document.height then initData.document.height - 1 else y1
    let w := if x2 + area.width > initData.document.width then initData.document.width - x2 else area.width
    let h := if y2 + area.height > initData.document.height then initData.document.height - y2 else area.height
    Except.ok { x := x2, y := y2, width := w, height := h }

/-- `Stitching.prototype._needsStitchingExceptions` (lib/helpers/stitching.js:368-392).
`imageWidth` is `image.getWidth()` of the calibration screenshot,
`viewPortWidth` is `initData.viewPortWidth`; the source lowercases the
driver-reported browser name before the comparison. -/
def needsStitchingExceptions (viewPortWidth imageWidth : ℤ) (devicePixelRatio : ℚ)
    (browserName : String) (browserVersion : ℚ) : Bool :=
  let expectedViewPortWidth : ℚ := (viewPortWidth : ℚ) * 2 * devicePixelRatio
  let actualViewPortWidth : ℚ := (imageWidth : ℚ)
  let difference := actualViewPortWidth - expectedViewPortWidth
  let delta := |difference|
  let needsStitching := decide (difference ≤ 0) && decide (delta ≥ expectedViewPortWidth * 0.2)
  if !needsStitching then
    if (jsToLowerCase browserName = "internet explorer") ∧ (browserVersion ≥ 10) then
      true
    else needsStitching
  else needsStitching

/-- `DevicePixelRatio.prototype._determineDevicePixelRatio`
(lib/helpers/devicePixelRatio.js:519-551), the measurement-reconciliation
core: `imageWidth` is the calibration screenshot's pixel width,
`documentWidth` is `initData.documentWidth`, and `reportedRatio` is the
browser-reported `initData.devicePixelRatio`. -/
def determineDevicePixelRatio (reportedRatio : ℚ) (imageWidth documentWidth : ℤ) : ℚ :=
  let devicePixelRatio : ℚ := (imageWidth : ℚ) / (documentWidth : ℚ)
  let rounded : ℚ := (jsRound (devicePixelRatio * 10) : ℚ) / 10
  let devicePixelRatio := if |devicePixelRatio - rounded| < 0.1 then rounded else devicePixelRatio
  if |devicePixelRatio - reportedRatio| ≤ 0.1 then reportedRatio else devicePixelRatio

/-- The per-capture boolean options consumed by `BlinkDiffComparison.compare`
(`blinkDiff.autoApprove`, `blinkDiff.outputOnSuccess`, `blinkDiff.failOnDifference`). -/
structure BlinkDiffOptions where
  autoApprove : Bool
  outputOnSuccess : Bool
  failOnDifference : Bool
deriving DecidableEq

/-- The three artifact slots (approved baseline, build, diff) a comparison
resolves to; `none` models a missing file.  `α` is the image-buffer type. -/
structure ComparisonFiles (α : Type) where
  approved : Option α
  build : Option α
  diff : Option α
deriving DecidableEq

/-- `BlinkDiffComparison.prototype.compare` (lib/comparison/blinkdiff.js:343-389).
The filesystem is modelled by `ComparisonFiles`; the external blink-diff
engine is abstracted by `hasPassed` (its pass verdict on approved/current
pair) and `diffOutput` (its diff-overlay image).  The source writes the build
artifact unconditionally, then branches on the existence of the approved
baseline; a thrown comparison error is an `Except.error` carrying the
source's message. -/
def blinkDiffCompare {α : Type} (opts : BlinkDiffOptions)
    (hasPassed : α → α → Bool) (diffOutput : α → α → α)
    (files : ComparisonFiles α) (title : String) (imageBlob : α) :
    Except String (Option Bool × ComparisonFiles α) :=
  let files1 : ComparisonFiles α := { files with build := some imageBlob }
  match files1.approved with
  | none =>
    if opts.autoApprove then
      Except.ok (none, { files1 with approved := some imageBlob })
    else
      Except.ok (none, files1)
  | some approvedImage =>
    let passed := hasPassed approvedImage imageBlob
    let files2 :=
      if !passed || (passed && opts.outputOnSuccess) then
        { files1 with diff := some (diffOutput approvedImage imageBlob) }
      else files1
    if !passed && opts.failOnDifference then
      Except.error ("Screenshots are different for " ++ title)
    else
      Except.ok (some passed, files2)

/-- Browser identity data used to name the debug file that
`takeRawScreenshot` writes (`__dirname`, `browserName()`, `browserVersion()`,
`platform()`). -/
structure BrowserEnv where
  dirname : String
  browserName : String
  browserVersion : String
  platform : String
deriving DecidableEq

/-- The process state touched by `Screenshot.prototype.takeRawScreenshot`:
the prototype-level counter `Screenshot.prototype.id` (one per process,
shared by every instance) and the files written so far, as path-content
pairs.  `α` is the image-buffer type. -/
structure ScreenshotFiles (α : Type) where
  id : ℕ
  files : List (String × α)
deriving DecidableEq

/-- The file path `takeRawScreenshot` writes to:
`__dirname + '/' + browserName + " " + browserVersion + " " + platform + " " + id + '.png'`. -/
def rawScreenshotFileName (env : BrowserEnv) (id : ℕ) : String :=
  env.dirname ++ "/" ++ env.browserName ++ " " ++ env.browserVersion ++ " " ++
    env.platform ++ " " ++ toString id ++ ".png"

/-- `Screenshot.prototype.takeRawScreenshot` (lib/helpers/screenshot.js:85-95).
`buffer` is the base64-decoded screenshot delivered by the wire protocol.
The function increments the prototype counter, synchronously writes the
buffer as a PNG named after the browser identity and the incremented
counter, and returns the buffer. -/
def takeRawScreenshot {α : Type} (env : BrowserEnv) (st : ScreenshotFiles α) (buffer : α) :
    ScreenshotFiles α × α :=
  let newId := st.id + 1
  ({ id := newId, files := st.files ++ [(rawScreenshotFileName env newId, buffer)] }, buffer)

/-- `Screenshot.prototype._gatherViewPortSections`
(lib/helpers/screenshot.js:477-513).  Subdivides one planned section into a
row-major grid of view-port-sized sub-captures.  The source's double loop
pushes cells for `y = 0..rows-1`, `x = 0..columns-1`, post-incrementing the
running `index` after each push, so the cell at grid position `(x, y)`
receives `index + y * columns + x`.  In the source the section is handed
over with its `viewPorts` slot still `undefined`; only its `width` and
`height` are read. -/
def gatherViewPortSections (sec : Section) (initData : InitData) (index : ℕ) : List ViewPort :=
  let sectionWidth := sec.width
  let sectionHeight := sec.height
  let viewPortWidth := initData.viewPort.width
  let viewPortHeight := initData.viewPort.height
  let columns := (jsCeilDiv sectionWidth viewPortWidth).toNat
  let rows := (jsCeilDiv sectionHeight viewPortHeight).toNat
  (List.range rows).flatMap (fun (y : ℕ) =>
    (List.range columns).map (fun (x : ℕ) =>
      let offsetX : ℤ := (x : ℤ) * viewPortWidth
      let offsetY : ℤ := (y : ℤ) * viewPortHeight
      let cellIndex : ℕ := index + y * columns + x
      { x := offsetX
        y := offsetY
        width := min viewPortWidth (sectionWidth - offsetX)
        height := min viewPortHeight (sectionHeight - offsetY)
        index := cellIndex }))

/-- The loop body of `_gatherDocumentSections` (lib/helpers/screenshot.js:433-462):
builds the sections for loop indices `i, i+1, ...` (`n` of them), threading
the global running view-port `index` exactly as the source does
(`index += document.viewPorts.length` in the stitching branch, `index++`
otherwise). -/
def gatherSectionsGo (area : Area) (initData : InitData) (sectionHeight : ℤ)
    (shift : Bool) (needsStitching : Bool) : ℕ → ℕ → ℕ → List Section
  | 0, _, _ => []
  | Nat.succ n, i, index =>
    let base : Section :=
      { shift := shift
        x := area.x
        y := area.y + (i : ℤ) * sectionHeight
        width := area.width
        height := min sectionHeight (area.height - (i : ℤ) * sectionHeight)
        viewPorts := [] }
    let vps :=
      if needsStitching then gatherViewPortSections base initData index
      else [{ x := 0, y := 0, width := base.width, height := base.height, index := index }]
    { base with viewPorts := vps } ::
      gatherSectionsGo area initData sectionHeight shift needsStitching n (i + 1) (index + vps.length)

/-- The `sectionHeight` computed at the head of `_gatherDocumentSections`
(lib/helpers/screenshot.js:424-429): the per-section height budget
`Math.floor(maxImageResolution / (document.width - area.x))`, rounded down
to a multiple of the view-port height when stitching is required. -/
def sectionHeightOf (area : Area) (initData : InitData) (maxImageResolution : ℚ)
    (needsStitching : Bool) : ℤ :=
  let width := initData.document.width - area.x
  let sectionHeight := jsFloor (maxImageResolution / (width : ℚ))
  if needsStitching then
    jsFloorDiv sectionHeight initData.viewPort.height * initData.viewPort.height
  else sectionHeight

/-- `Screenshot.prototype._gatherDocumentSections`
(lib/helpers/screenshot.js:418-465).  `maxImageResolution` is the budget
already scaled by `1 / devicePixelRatio` by the caller, hence rational.
The result is `none` exactly where the source never returns: when the
computed `sectionHeight` is `0` and the area height is positive, the JS
loop bound `Math.ceil(area.height / 0)` is `Infinity` and the loop runs
forever.  The remaining division edge cases terminate in JS with an empty
list and are modelled as such: `document.width - area.x = 0` makes
`sectionHeight` infinite and the loop bound `0`, and a negative
`sectionHeight` makes the loop bound non-positive. -/
def gatherDocumentSections (area : Area) (initData : InitData) (maxImageResolution : ℚ)
    (needsStitching : Bool) : Option (List Section) :=
  let width := initData.document.width - area.x
  if width = 0 then some []
  else
    let sectionHeight := sectionHeightOf area initData maxImageResolution needsStitching
    if sectionHeight < 0 then some []
    else if sectionHeight = 0 then
      if area.height ≤ 0 then some [] else none
    else
      let sectionCount := (jsCeilDiv area.height sectionHeight).toNat
      some (gatherSectionsGo area initData sectionHeight (sectionCount != 1) needsStitching
        sectionCount 0 0)

/-- The message of the configuration error thrown by `_takeScreenshot`
(lib/helpers/screenshot.js:336). -/
def maxImageResolutionErrorMessage : String :=
  "The maxImageResolution needs to be greater or equal to one time the document width."

/-- The synchronous prefix of `Screenshot.prototype._takeScreenshot`
(lib/helpers/screenshot.js:316-344) up to the capture plan: scale
`maxImageResolution` by `1 / devicePixelRatio`, fail on a document wider
than the scaled budget, then validate the area and plan the sections.
`none` again marks the planner's non-termination case. -/
def takeScreenshotPlan (devicePixelRatio maxImageResolution : ℚ) (initData : InitData)
    (area : Area) (needsStitching : Bool) : Option (Except String (List Section)) :=
  let adjusted := maxImageResolution * (1 / devicePixelRatio)
  if (initData.document.width : ℚ) > adjusted then
    some (Except.error maxImageResolutionErrorMessage)
  else
    match validateArea area initData with
    | Except.error e => some (Except.error e)
    | Except.ok validated =>
      (gatherDocumentSections validated initData adjusted needsStitching).map Except.ok

/-- The local (counter and filesystem) effect of
`DevicePixelRatio.prototype._determineDevicePixelRatio`: between the remote
init and revert scripts (which only mutate the browser) it takes exactly one
raw calibration screenshot, then computes the ratio from its width. -/
def determineDevicePixelRatioRun {α : Type} (env : BrowserEnv) (st : ScreenshotFiles α)
    (buffer : α) (reportedRatio : ℚ) (imageWidth documentWidth : ℤ) :
    ScreenshotFiles α × ℚ :=
  let step := takeRawScreenshot env st buffer
  (step.1, determineDevicePixelRatio reportedRatio imageWidth documentWidth)

/-! ## C3: stitching detection threshold -/

/-- C3: the stitching detector's verdict from a calibration measurement
equals `(A ≤ E) && (|E − A| ≥ 0.2 × E)` where `E = 2 × viewPortWidth ×
devicePixelRatio` is the expected screenshot width and `A` the actual pixel
width; and the verdict is forced to `true` for Internet Explorer with
browser version ≥ 10 regardless of the measured values. -/
theorem needsStitchingExceptions_verdict (viewPortWidth imageWidth : ℤ)
    (devicePixelRatio : ℚ) (browserName : String) (browserVersion : ℚ) :
    (¬(jsToLowerCase browserName = "internet explorer" ∧ browserVersion ≥ 10) →
      (needsStitchingExceptions viewPortWidth imageWidth devicePixelRatio browserName
          browserVersion = true ↔
        ((imageWidth : ℚ) ≤ 2 * (viewPortWidth : ℚ) * devicePixelRatio ∧
          |2 * (viewPortWidth : ℚ) * devicePixelRatio - (imageWidth : ℚ)| ≥
            0.2 * (2 * (viewPortWidth : ℚ) * devicePixelRatio)))) ∧
    ((jsToLowerCase browserName = "internet explorer" ∧ browserVersion ≥ 10) →
      needsStitchingExceptions viewPortWidth imageWidth devicePixelRatio browserName
        browserVersion = true) := by
  have hE : (viewPortWidth : ℚ) * 2 * devicePixelRatio =
      2 * (viewPortWidth : ℚ) * devicePixelRatio := by ring
  constructor
  · intro hnotIE
    simp only [needsStitchingExceptions, hE]
    constructor
    · intro hres
      by_cases hforms : ((imageWidth : ℚ) - 2 * (viewPortWidth : ℚ) * devicePixelRatio ≤ 0) ∧
          (|(imageWidth : ℚ) - 2 * (viewPortWidth : ℚ) * devicePixelRatio| ≥
            2 * (viewPortWidth : ℚ) * devicePixelRatio * 0.2)
      · refine ⟨by linarith [hforms.1], ?_⟩
        calc 0.2 * (2 * (viewPortWidth : ℚ) * devicePixelRatio)
            = 2 * (viewPortWidth : ℚ) * devicePixelRatio * 0.2 := by ring
          _ ≤ |(imageWidth : ℚ) - 2 * (viewPortWidth : ℚ) * devicePixelRatio| := hforms.2
          _ = |2 * (viewPortWidth : ℚ) * devicePixelRatio - (imageWidth : ℚ)| := abs_sub_comm _ _
      · exfalso
        rw [Decidable.not_and_iff_or_not] at hforms
        rcases hforms with hf | hf <;>
          simp only [decide_eq_true_eq, decide_eq_false hf, Bool.false_and, Bool.and_false,
            Bool.not_false, if_true, if_neg hnotIE] at hres <;>
          exact absurd hres (by simp)
    · intro hforms
      have h1 : (imageWidth : ℚ) - 2 * (viewPortWidth : ℚ) * devicePixelRatio ≤ 0 := by
        linarith [hforms.1]
      have h2 : |(imageWidth : ℚ) - 2 * (viewPortWidth : ℚ) * devicePixelRatio| ≥
          2 * (viewPortWidth : ℚ) * devicePixelRatio * 0.2 := by
        rw [abs_sub_comm]
        calc 2 * (viewPortWidth : ℚ) * devicePixelRatio * 0.2
            = 0.2 * (2 * (viewPortWidth : ℚ) * devicePixelRatio) := by ring
          _ ≤ |2 * (viewPortWidth : ℚ) * devicePixelRatio - (imageWidth : ℚ)| := hforms.2
      simp [decide_eq_true_eq, h1, h2]
  · intro hIE
    by_cases hb : ((imageWidth : ℚ) - (viewPortWidth : ℚ) * 2 * devicePixelRatio ≤ 0) ∧
        (|(imageWidth : ℚ) - (viewPortWidth : ℚ) * 2 * devicePixelRatio| ≥
          (viewPortWidth : ℚ) * 2 * devicePixelRatio * 0.2)
    · simp [needsStitchingExceptions, hb.1, hb.2]
    · rw [Decidable.not_and_iff_or_not] at hb
      rcases hb with hb | hb <;>
        simp [needsStitchingExceptions, hb, hIE]

/-- Witness for C3: a Chrome measurement of 100px against an expected 200px
trips the threshold formula, and an Internet Explorer 11 measurement of
399px (formula false) is still forced to `true` by the override. -/
theorem needsStitchingExceptions_verdict_witness :
    needsStitchingExceptions 100 100 1 ("Chrome") 99 = true ∧
    needsStitchingExceptions 100 399 1 ("Internet Explorer") 11 = true := by
  refine ⟨((needsStitchingExceptions_verdict 100 100 1 ("Chrome") 99).1 ?_).mpr ?_,
    (needsStitchingExceptions_verdict 100 399 1 ("Internet Explorer") 11).2 ⟨?_, ?_⟩⟩
  · intro hcontra
    exact absurd hcontra.1 (by decide)
  · norm_num
  · decide
  · norm_num

/-! ## C4: device-pixel-ratio reconciliation -/

/-- C4: the resolver returns the reported ratio `r` whenever `|r − m| ≤ 0.1`
for the measured ratio `m` (screenshot width over document width, rounded to
the nearest tenth), and otherwise returns `m`; the rounding condition — `m`
within `0.1` of a tenth boundary — holds for every measurement, so `m` is
always the rounded value. -/
theorem determineDevicePixelRatio_spec (reportedRatio : ℚ) (imageWidth documentWidth : ℤ) :
    |(imageWidth : ℚ) / (documentWidth : ℚ) -
        (jsRound ((imageWidth : ℚ) / (documentWidth : ℚ) * 10) : ℚ) / 10| < 0.1 ∧
    (|reportedRatio - (jsRound ((imageWidth : ℚ) / (documentWidth : ℚ) * 10) : ℚ) / 10| ≤ 0.1 →
      determineDevicePixelRatio reportedRatio imageWidth documentWidth = reportedRatio) ∧
    (|reportedRatio - (jsRound ((imageWidth : ℚ) / (documentWidth : ℚ) * 10) : ℚ) / 10| > 0.1 →
      determineDevicePixelRatio reportedRatio imageWidth documentWidth =
        (jsRound ((imageWidth : ℚ) / (documentWidth : ℚ) * 10) : ℚ) / 10) := by
  set m : ℚ := (imageWidth : ℚ) / (documentWidth : ℚ) with hm
  set k : ℤ := jsRound (m * 10) with hk
  have hround : |m - (k : ℚ) / 10| < 0.1 := by
    have h1 : ((k : ℚ)) ≤ m * 10 + 1/2 := by
      rw [hk, jsRound]
      exact_mod_cast Int.floor_le (m * 10 + 1/2)
    have h2 : m * 10 + 1/2 < (k : ℚ) + 1 := by
      rw [hk, jsRound]
      exact_mod_cast Int.lt_floor_add_one (m * 10 + 1/2)
    rw [abs_lt]
    constructor <;> [linarith; linarith]
  refine ⟨hround, ?_, ?_⟩ <;> intro hcmp <;>
    simp only [determineDevicePixelRatio, ← hm, ← hk, if_pos hround] <;>
    rw [abs_sub_comm] at hcmp
  · rw [if_pos hcmp]
  · rw [if_neg (not_le.mpr hcmp)]

/-- Witness for C4: with a 13px screenshot of a 10px document the measured
ratio `1.3` is kept (reported `2` differs by more than `0.1`), while a
reported ratio of `1.25` wins against the same measurement. -/
theorem determineDevicePixelRatio_spec_witness :
    determineDevicePixelRatio 2 13 10 = (13 : ℚ) / 10 ∧
    determineDevicePixelRatio (5/4) 13 10 = 5/4 := by
  have hk : jsRound ((((13 : ℤ) : ℚ)) / (((10 : ℤ) : ℚ)) * 10) = 13 := by
    norm_num [jsRound]
  constructor
  · have h := (determineDevicePixelRatio_spec 2 13 10).2.2
    rw [hk] at h
    have := h (by rw [show |(2 : ℚ) - (13 : ℤ) / 10| = 7/10 by rw [abs_of_nonneg] <;> push_cast <;> norm_num]; norm_num)
    rw [this]
    norm_num
  · have h := (determineDevicePixelRatio_spec (5/4) 13 10).2.1
    rw [hk] at h
    exact h (by rw [show |(5 : ℚ)/4 - (13 : ℤ) / 10| = 1/20 by rw [abs_of_nonpos] <;> push_cast <;> norm_num]; norm_num)

/-! ## C6 and C9: area validation -/

/-- C6: area validation raises an error exactly when `width < 0` or
`height < 0`; otherwise it clamps negative `x`/`y` to `0`, clamps `x`
(resp. `y`) at or beyond the document width (resp. height) to
`documentSize - 1`, reduces `width` (resp. `height`) so that `x + width`
(resp. `y + height`) stays inside the document, and changes nothing else. -/
theorem validateArea_spec (area : Area) (initData : InitData) :
    ((∃ e, validateArea area initData = Except.error e) ↔
      (area.width < 0 ∨ area.height < 0)) ∧
    (0 ≤ area.width → 0 ≤ area.height →
      0 < initData.document.width → 0 < initData.document.height →
      validateArea area initData = Except.ok
        { x := max 0 (min area.x (initData.document.width - 1))
          y := max 0 (min area.y (initData.document.height - 1))
          width := min area.width
            (initData.document.width - max 0 (min area.x (initData.document.width - 1)))
          height := min area.height
            (initData.document.height - max 0 (min area.y (initData.document.height - 1))) }) := by
  constructor
  · unfold validateArea
    split_ifs with h1 h2
    · simp only [Except.error.injEq, exists_eq']
      exact iff_of_true trivial (Or.inl h1)
    · simp only [Except.error.injEq, exists_eq']
      exact iff_of_true trivial (Or.inr h2)
    · constructor
      · rintro ⟨e, he⟩
        exact absurd he (by simp)
      · intro hcontra
        omega
  · intro hw hh hW hH
    unfold validateArea
    rw [if_neg (not_lt.mpr hw), if_neg (not_lt.mpr hh)]
    simp only [Except.ok.injEq, Area.mk.injEq]
    refine ⟨?_, ?_, ?_, ?_⟩ <;> split_ifs <;> omega

/-- Witness for C6: an area reaching past a 100×50 document on every side is
clamped onto it, and a negative-width area errors. -/
theorem validateArea_spec_witness :
    validateArea ⟨-3, 45, 200, 20⟩ ⟨⟨100, 50⟩, ⟨40, 30⟩⟩ =
      Except.ok ⟨0, 45, 100, 5⟩ ∧
    ((∃ e, validateArea ⟨0, 0, -1, 5⟩ ⟨⟨100, 50⟩, ⟨40, 30⟩⟩ = Except.error e) ↔
      ((-1 : ℤ) < 0 ∨ (5 : ℤ) < 0)) := by
  constructor
  · have h := (validateArea_spec ⟨-3, 45, 200, 20⟩ ⟨⟨100, 50⟩, ⟨40, 30⟩⟩).2
      (by decide) (by decide) (by decide) (by decide)
    rw [h]
    decide
  · exact (validateArea_spec ⟨0, 0, -1, 5⟩ ⟨⟨100, 50⟩, ⟨40, 30⟩⟩).1

/-- C9: for areas with non-negative width and height, validation/clamping is
idempotent — re-validating a validated area returns it unchanged. -/
theorem validateArea_idempotent (area : Area) (initData : InitData) (validated : Area)
    (hw : 0 ≤ area.width) (hh : 0 ≤ area.height)
    (h : validateArea area initData = Except.ok validated) :
    validateArea validated initData = Except.ok validated := by
  unfold validateArea at h
  rw [if_neg (not_lt.mpr hw), if_neg (not_lt.mpr hh)] at h
  simp only [Except.ok.injEq] at h
  subst h
  unfold validateArea
  have hxBound : (if (if area.x < 0 then 0 else area.x) ≥ initData.document.width then
      initData.document.width - 1 else if area.x < 0 then 0 else area.x) ≤
      initData.document.width - 1 := by
    split_ifs <;> omega
  have hyBound : (if (if area.y < 0 then 0 else area.y) ≥ initData.document.height then
      initData.document.height - 1 else if area.y < 0 then 0 else area.y) ≤
      initData.document.height - 1 := by
    split_ifs <;> omega
  simp only
  rw [if_neg, if_neg]
  · simp only [Except.ok.injEq, Area.mk.injEq]
    refine ⟨?_, ?_, ?_, ?_⟩ <;> split_ifs <;> omega
  · split_ifs <;> omega
  · split_ifs <;> omega

/-- Witness for C9: validating the clamped area `⟨0, 45, 100, 5⟩` in a
100×50 document again returns it unchanged. -/
theorem validateArea_idempotent_witness :
    validateArea ⟨0, 45, 100, 5⟩ ⟨⟨100, 50⟩, ⟨40, 30⟩⟩ = Except.ok ⟨0, 45, 100, 5⟩ := by
  exact validateArea_idempotent ⟨-3, 45, 200, 20⟩ ⟨⟨100, 50⟩, ⟨40, 30⟩⟩ ⟨0, 45, 100, 5⟩
    (by decide) (by decide) (by decide)

/-! ## C5: comparison state machine -/

/-- C5: the BlinkDiff comparison state machine — (a) missing baseline with
auto-approve yields verdict `null` and creates the approved file equal to
the current image; (b) missing baseline without auto-approve yields `null`
and creates no approved file; (c) a passing diff against an existing
baseline yields `true` and writes the diff artifact only under
`outputOnSuccess`; (d) a failing diff with `failOnDifference` raises an
error naming the title; (e) a failing diff without it yields `false` and no
error; and the three verdicts `null`/`true`/`false` are pairwise distinct. -/
theorem blinkDiffCompare_state_machine {α : Type} (opts : BlinkDiffOptions)
    (hasPassed : α → α → Bool) (diffOutput : α → α → α)
    (files : ComparisonFiles α) (title : String) (imageBlob : α) :
    (files.approved = none → opts.autoApprove = true →
      blinkDiffCompare opts hasPassed diffOutput files title imageBlob =
        Except.ok (none,
          { approved := some imageBlob, build := some imageBlob, diff := files.diff })) ∧
    (files.approved = none → opts.autoApprove = false →
      blinkDiffCompare opts hasPassed diffOutput files title imageBlob =
        Except.ok (none,
          { approved := none, build := some imageBlob, diff := files.diff })) ∧
    (∀ baseline, files.approved = some baseline → hasPassed baseline imageBlob = true →
      blinkDiffCompare opts hasPassed diffOutput files title imageBlob =
        Except.ok (some true,
          { approved := some baseline, build := some imageBlob
            diff := if opts.outputOnSuccess then some (diffOutput baseline imageBlob)
              else files.diff })) ∧
    (∀ baseline, files.approved = some baseline → hasPassed baseline imageBlob = false →
      opts.failOnDifference = true →
      blinkDiffCompare opts hasPassed diffOutput files title imageBlob =
        Except.error ("Screenshots are different for " ++ title)) ∧
    (∀ baseline, files.approved = some baseline → hasPassed baseline imageBlob = false →
      opts.failOnDifference = false →
      blinkDiffCompare opts hasPassed diffOutput files title imageBlob =
        Except.ok (some false,
          { approved := some baseline, build := some imageBlob
            diff := some (diffOutput baseline imageBlob) })) ∧
    ((none : Option Bool) ≠ some true ∧ (none : Option Bool) ≠ some false ∧
      (some true : Option Bool) ≠ some false) := by
  obtain ⟨appr, bld, dff⟩ := files
  refine ⟨?_, ?_, ?_, ?_, ?_, by simp, by simp, by simp⟩
  · intro hap hauto
    simp only at hap
    subst hap
    simp [blinkDiffCompare, hauto]
  · intro hap hauto
    simp only at hap
    subst hap
    simp [blinkDiffCompare, hauto]
  · intro baseline hap hpass
    simp only at hap
    subst hap
    by_cases hout : opts.outputOnSuccess <;>
      simp [blinkDiffCompare, hpass, hout]
  · intro baseline hap hpass hfail
    simp only at hap
    subst hap
    simp [blinkDiffCompare, hpass, hfail]
  · intro baseline hap hpass hfail
    simp only at hap
    subst hap
    simp [blinkDiffCompare, hpass, hfail]

/-- Witness for C5, over `ℕ` buffers with a pass verdict given by equality
and diff overlay given by addition: all five transitions at concrete
states. -/
theorem blinkDiffCompare_state_machine_witness :
    (blinkDiffCompare ⟨true, false, true⟩ (fun a b => a == b) (fun a b => a + b)
        ⟨none, none, none⟩ ("home") 7 =
      Except.ok (none, { approved := some 7, build := some 7, diff := none })) ∧
    (blinkDiffCompare ⟨false, false, true⟩ (fun a b => a == b) (fun a b => a + b)
        ⟨none, none, none⟩ ("home") 7 =
      Except.ok (none, { approved := none, build := some 7, diff := none })) ∧
    (blinkDiffCompare ⟨false, false, true⟩ (fun a b => a == b) (fun a b => a + b)
        ⟨some 7, none, none⟩ ("home") 7 =
      Except.ok (some true, { approved := some 7, build := some 7, diff := none })) ∧
    (blinkDiffCompare ⟨false, false, true⟩ (fun a b => a == b) (fun a b => a + b)
        ⟨some 7, none, none⟩ ("home") 9 =
      Except.error ("Screenshots are different for home")) ∧
    (blinkDiffCompare ⟨false, false, false⟩ (fun a b => a == b) (fun a b => a + b)
        ⟨some 7, none, none⟩ ("home") 9 =
      Except.ok (some false, { approved := some 7, build := some 9, diff := some 16 })) := by
  refine ⟨?_, ?_, ?_, ?_, ?_⟩
  · exact (blinkDiffCompare_state_machine ⟨true, false, true⟩ (fun a b => a == b)
      (fun a b => a + b) ⟨none, none, none⟩ ("home") 7).1 rfl rfl
  · exact (blinkDiffCompare_state_machine ⟨false, false, true⟩ (fun a b => a == b)
      (fun a b => a + b) ⟨none, none, none⟩ ("home") 7).2.1 rfl rfl
  · have h := (blinkDiffCompare_state_machine ⟨false, false, true⟩ (fun a b => a == b)
      (fun a b => a + b) ⟨some 7, none, none⟩ ("home") 7).2.2.1 7 rfl (by decide)
    simpa using h
  · exact (blinkDiffCompare_state_machine ⟨false, false, true⟩ (fun a b => a == b)
      (fun a b => a + b) ⟨some 7, none, none⟩ ("home") 9).2.2.2.1 7 rfl (by decide) rfl
  · exact (blinkDiffCompare_state_machine ⟨false, false, false⟩ (fun a b => a == b)
      (fun a b => a + b) ⟨some 7, none, none⟩ ("home") 9).2.2.2.2.1 7 rfl (by decide) rfl

/-! ## C7: configuration error precedence -/

/-- The two fatal messages `_validateArea` can raise. -/
theorem validateArea_error_messages (area : Area) (initData : InitData) (e : String)
    (h : validateArea area initData = Except.error e) :
    e = ("Width of area to capture cannot be negative.") ∨
      e = ("Height of area to capture cannot be negative.") := by
  unfold validateArea at h
  split_ifs at h <;> simp_all

/-- C7: when the document width exceeds the device-pixel-ratio-adjusted
`maxImageResolution`, the screenshot operation raises the configuration
error before any area validation or section planning (for every area, even
invalid ones); when it does not, that error is never raised. -/
theorem takeScreenshotPlan_configError (devicePixelRatio maxImageResolution : ℚ)
    (initData : InitData) (area : Area) (needsStitching : Bool) :
    ((initData.document.width : ℚ) > maxImageResolution * (1 / devicePixelRatio) →
      takeScreenshotPlan devicePixelRatio maxImageResolution initData area needsStitching =
        some (Except.error maxImageResolutionErrorMessage)) ∧
    ((initData.document.width : ℚ) ≤ maxImageResolution * (1 / devicePixelRatio) →
      takeScreenshotPlan devicePixelRatio maxImageResolution initData area needsStitching ≠
        some (Except.error maxImageResolutionErrorMessage)) := by
  constructor
  · intro hgt
    unfold takeScreenshotPlan
    rw [if_pos hgt]
  · intro hle
    unfold takeScreenshotPlan
    rw [if_neg (not_lt.mpr hle)]
    cases hv : validateArea area initData with
    | error e =>
      simp only [Option.some.injEq, ne_eq, Except.error.injEq]
      intro hcontra
      rcases validateArea_error_messages area initData e hv with he | he <;>
        rw [he] at hcontra <;>
        exact absurd hcontra (by simp [maxImageResolutionErrorMessage])
    | ok validated =>
      cases gatherDocumentSections validated initData
          (maxImageResolution * (1 / devicePixelRatio)) needsStitching <;>
        simp

/-- Witness for C7: a 20px-wide document over budget 10 (ratio 1) raises
the configuration error; a 5px-wide one cannot raise it. -/
theorem takeScreenshotPlan_configError_witness :
    (takeScreenshotPlan 1 10 ⟨⟨20, 50⟩, ⟨4, 3⟩⟩ ⟨0, 0, -1, -1⟩ false =
      some (Except.error maxImageResolutionErrorMessage)) ∧
    (takeScreenshotPlan 1 10 ⟨⟨5, 50⟩, ⟨4, 3⟩⟩ ⟨0, 0, 5, 50⟩ false ≠
      some (Except.error maxImageResolutionErrorMessage)) := by
  constructor
  · exact (takeScreenshotPlan_configError 1 10 ⟨⟨20, 50⟩, ⟨4, 3⟩⟩ ⟨0, 0, -1, -1⟩ false).1
      (by norm_num)
  · exact (takeScreenshotPlan_configError 1 10 ⟨⟨5, 50⟩, ⟨4, 3⟩⟩ ⟨0, 0, 5, 50⟩ false).2
      (by norm_num)

/-! ## C10: raw-screenshot frame effect -/

/-- C10: every raw capture bumps the process-wide prototype counter by one,
synchronously appends a PNG named from the browser name, version, platform
and that counter inside the library directory, and returns the decoded
buffer; the ratio-calibration capture performs exactly the same effect. -/
theorem takeRawScreenshot_effect {α : Type} (env : BrowserEnv) (st : ScreenshotFiles α)
    (buffer : α) (reportedRatio : ℚ) (imageWidth documentWidth : ℤ) :
    (takeRawScreenshot env st buffer).1.id = st.id + 1 ∧
    (takeRawScreenshot env st buffer).1.files =
      st.files ++ [(rawScreenshotFileName env (st.id + 1), buffer)] ∧
    (takeRawScreenshot env st buffer).2 = buffer ∧
    (determineDevicePixelRatioRun env st buffer reportedRatio imageWidth documentWidth).1 =
      (takeRawScreenshot env st buffer).1 := by
  exact ⟨rfl, rfl, rfl, rfl⟩

/-! ## Planner infrastructure -/

theorem range'_append_one (s m n : ℕ) :
    List.range' s m ++ List.range' (s + m) n = List.range' s (m + n) := by
  have h := List.range'_append s m n 1
  simp only [one_mul] at h
  rw [h, Nat.add_comm]

theorem jsCeilDiv_mul (a b : ℤ) (hb : 0 < b) : jsCeilDiv a b * b = a + (-a) % b := by
  unfold jsCeilDiv
  rw [Int.fdiv_eq_ediv _ hb.le]
  linear_combination -Int.ediv_add_emod (-a) b

theorem le_jsCeilDiv_mul (a b : ℤ) (hb : 0 < b) : a ≤ jsCeilDiv a b * b := by
  rw [jsCeilDiv_mul a b hb]
  have := Int.emod_nonneg (-a) hb.ne'
  omega

theorem jsCeilDiv_mul_lt (a b : ℤ) (hb : 0 < b) : jsCeilDiv a b * b < a + b := by
  rw [jsCeilDiv_mul a b hb]
  have := Int.emod_lt_of_pos (-a) hb
  omega

theorem jsCeilDiv_nonneg (a b : ℤ) (hb : 0 < b) (ha : 0 ≤ a) : 0 ≤ jsCeilDiv a b := by
  by_contra hneg
  push_neg at hneg
  have h2 : jsCeilDiv a b * b ≤ -1 * b :=
    mul_le_mul_of_nonneg_right (by omega) hb.le
  have h3 := le_jsCeilDiv_mul a b hb
  linarith

/-- The grid cell pushed by the double loop of `_gatherViewPortSections` at
grid position `(x, y)` — the shape the flatMap/map in the definition
produces, named for use in the proofs below. -/
def gridCell (sectionWidth sectionHeight viewPortWidth viewPortHeight : ℤ)
    (columns index : ℕ) (x y : ℕ) : ViewPort :=
  { x := (x : ℤ) * viewPortWidth
    y := (y : ℤ) * viewPortHeight
    width := min viewPortWidth (sectionWidth - (x : ℤ) * viewPortWidth)
    height := min viewPortHeight (sectionHeight - (y : ℤ) * viewPortHeight)
    index := index + y * columns + x }

theorem gatherViewPortSections_eq (sec : Section) (initData : InitData) (index : ℕ) :
    gatherViewPortSections sec initData index =
      (List.range (jsCeilDiv sec.height initData.viewPort.height).toNat).flatMap (fun y =>
        (List.range (jsCeilDiv sec.width initData.viewPort.width).toNat).map (fun x =>
          gridCell sec.width sec.height initData.viewPort.width initData.viewPort.height
            (jsCeilDiv sec.width initData.viewPort.width).toNat index x y)) := rfl

/-- The view-port indices of one `_gatherViewPortSections` call are the
gap-free run starting at the passed-in index. -/
theorem gatherViewPortSections_map_index (sec : Section) (initData : InitData) (index : ℕ) :
    (gatherViewPortSections sec initData index).map (fun v => v.index) =
      List.range' index ((jsCeilDiv sec.height initData.viewPort.height).toNat *
        (jsCeilDiv sec.width initData.viewPort.width).toNat) := by
  rw [gatherViewPortSections_eq, List.map_flatMap]
  simp only [List.map_map, Function.comp_def, gridCell]
  generalize (jsCeilDiv sec.width initData.viewPort.width).toNat = C
  generalize (jsCeilDiv sec.height initData.viewPort.height).toNat = R
  induction R with
  | zero => simp
  | succ r ih =>
    rw [List.range_succ, List.flatMap_append, ih, List.flatMap_cons, List.flatMap_nil,
      List.append_nil]
    have hrow : (List.range C).map (fun x => index + r * C + x) =
        List.range' (index + r * C) C :=
      (List.range'_eq_map_range (index + r * C) C).symm
    rw [hrow, range'_append_one, Nat.succ_mul]

theorem gatherViewPortSections_length (sec : Section) (initData : InitData) (index : ℕ) :
    (gatherViewPortSections sec initData index).length =
      (jsCeilDiv sec.height initData.viewPort.height).toNat *
        (jsCeilDiv sec.width initData.viewPort.width).toNat := by
  have h := congrArg List.length (gatherViewPortSections_map_index sec initData index)
  simpa using h

/-- Membership characterization of the view-port grid. -/
theorem mem_gatherViewPortSections (sec : Section) (initData : InitData) (index : ℕ)
    (v : ViewPort) :
    v ∈ gatherViewPortSections sec initData index ↔
      ∃ y < (jsCeilDiv sec.height initData.viewPort.height).toNat,
        ∃ x < (jsCeilDiv sec.width initData.viewPort.width).toNat,
          v = gridCell sec.width sec.height initData.viewPort.width initData.viewPort.height
            (jsCeilDiv sec.width initData.viewPort.width).toNat index x y := by
  rw [gatherViewPortSections_eq]
  simp only [List.mem_flatMap, List.mem_map, List.mem_range]
  constructor
  · rintro ⟨y, hy, x, hx, rfl⟩
    exact ⟨y, hy, x, hx, rfl⟩
  · rintro ⟨y, hy, x, hx, rfl⟩
    exact ⟨y, hy, x, hx, rfl⟩

/-- Geometry of the sections built by the `_gatherDocumentSections` loop:
the `j`-th generated section sits at `area.y + (i+j) * sectionHeight` with
height clipped to the remaining area height, at the area's `x` and width. -/
theorem gatherSectionsGo_map_geom (area : Area) (initData : InitData) (sectionHeight : ℤ)
    (shift needsStitching : Bool) :
    ∀ (n i index : ℕ),
      (gatherSectionsGo area initData sectionHeight shift needsStitching n i index).map
        (fun s => (s.x, s.y, s.width, s.height)) =
      (List.range' i n).map (fun (j : ℕ) =>
        (area.x, area.y + (j : ℤ) * sectionHeight, area.width,
          min sectionHeight (area.height - (j : ℤ) * sectionHeight))) := by
  intro n
  induction n with
  | zero => intro i index; simp [gatherSectionsGo]
  | succ n ih =>
    intro i index
    rw [List.range'_succ, List.map_cons]
    simp only [gatherSectionsGo, List.map_cons]
    congr 1
    exact ih (i + 1) _

theorem gatherSectionsGo_length (area : Area) (initData : InitData) (sectionHeight : ℤ)
    (shift needsStitching : Bool) (n i index : ℕ) :
    (gatherSectionsGo area initData sectionHeight shift needsStitching n i index).length = n := by
  have h := congrArg List.length
    (gatherSectionsGo_map_geom area initData sectionHeight shift needsStitching n i index)
  simpa using h

/-- The flattened view-port indices of the section loop form the gap-free
run starting at the passed-in index: each section's view-ports extend the
run by exactly their number, whether or not stitching subdivides them. -/
theorem gatherSectionsGo_flat_index (area : Area) (initData : InitData) (sectionHeight : ℤ)
    (shift needsStitching : Bool) :
    ∀ (n i index : ℕ),
      ((gatherSectionsGo area initData sectionHeight shift needsStitching n i index).flatMap
          (fun s => s.viewPorts)).map (fun v => v.index) =
        List.range' index
          ((gatherSectionsGo area initData sectionHeight shift needsStitching n i
            index).flatMap (fun s => s.viewPorts)).length := by
  intro n
  induction n with
  | zero => intro i index; simp [gatherSectionsGo]
  | succ n ih =>
    intro i index
    by_cases hst : needsStitching = true
    · subst hst
      simp only [gatherSectionsGo, reduceIte, List.flatMap_cons, List.map_append,
        List.length_append]
      rw [gatherViewPortSections_map_index, ih, ← gatherViewPortSections_length,
        range'_append_one]
    · simp only [Bool.not_eq_true] at hst
      subst hst
      simp only [gatherSectionsGo, Bool.false_eq_true, if_false, List.flatMap_cons,
        List.map_append, List.length_append, List.map_cons, List.map_nil, List.length_cons,
        List.length_nil]
      rw [ih]
      rw [show ([index] : List ℕ) = List.range' index 1 from rfl, range'_append_one]

/-! ## C2: view-port tiling exactness -/

/-- C2: under stitching, the sub-viewport grid of every planned section
tiles the section rectangle exactly — cells are pairwise disjoint and their
union is `[0, width) × [0, height)` — every call's index values are the
gap-free run starting at the passed-in index, and across all sections of a
plan the assigned indices form the gap-free run starting at `0`. -/
theorem gatherViewPortSections_tiling (initData : InitData) (sec : Section) (index : ℕ)
    (area : Area) (maxImageResolution : ℚ) (needsStitching : Bool) (secs : List Section)
    (hvw : 0 < initData.viewPort.width) (hvh : 0 < initData.viewPort.height)
    (hsw : 0 ≤ sec.width) (hsh : 0 ≤ sec.height)
    (hsecs : gatherDocumentSections area initData maxImageResolution needsStitching =
      some secs) :
    (∀ v1 ∈ gatherViewPortSections sec initData index,
      ∀ v2 ∈ gatherViewPortSections sec initData index, v1 ≠ v2 →
        v1.x + v1.width ≤ v2.x ∨ v2.x + v2.width ≤ v1.x ∨
          v1.y + v1.height ≤ v2.y ∨ v2.y + v2.height ≤ v1.y) ∧
    (∀ px py : ℤ,
      (0 ≤ px ∧ px < sec.width ∧ 0 ≤ py ∧ py < sec.height) ↔
        ∃ v ∈ gatherViewPortSections sec initData index,
          v.x ≤ px ∧ px < v.x + v.width ∧ v.y ≤ py ∧ py < v.y + v.height) ∧
    ((gatherViewPortSections sec initData index).map (fun v => v.index) =
      List.range' index (gatherViewPortSections sec initData index).length) ∧
    ((secs.flatMap (fun s => s.viewPorts)).map (fun v => v.index) =
      List.range' 0 (secs.flatMap (fun s => s.viewPorts)).length) := by
  set vw := initData.viewPort.width with hvwdef
  set vh := initData.viewPort.height with hvhdef
  set C := (jsCeilDiv sec.width vw).toNat with hCdef
  set R := (jsCeilDiv sec.height vh).toNat with hRdef
  have hCcast : ((C : ℤ)) = jsCeilDiv sec.width vw :=
    Int.toNat_of_nonneg (jsCeilDiv_nonneg _ _ hvw hsw)
  have hRcast : ((R : ℤ)) = jsCeilDiv sec.height vh :=
    Int.toNat_of_nonneg (jsCeilDiv_nonneg _ _ hvh hsh)
  have hCw : sec.width ≤ (C : ℤ) * vw := by
    rw [hCcast]
    exact le_jsCeilDiv_mul _ _ hvw
  have hRh : sec.height ≤ (R : ℤ) * vh := by
    rw [hRcast]
    exact le_jsCeilDiv_mul _ _ hvh
  have keyx : ∀ u v : ℕ, u < v →
      (u : ℤ) * vw + min vw (sec.width - (u : ℤ) * vw) ≤ (v : ℤ) * vw := by
    intro u v huv
    have h1 : ((u : ℤ) + 1) * vw ≤ (v : ℤ) * vw :=
      mul_le_mul_of_nonneg_right (by exact_mod_cast huv) hvw.le
    rw [add_mul, one_mul] at h1
    have h2 : min vw (sec.width - (u : ℤ) * vw) ≤ vw := min_le_left _ _
    linarith
  have keyy : ∀ u v : ℕ, u < v →
      (u : ℤ) * vh + min vh (sec.height - (u : ℤ) * vh) ≤ (v : ℤ) * vh := by
    intro u v huv
    have h1 : ((u : ℤ) + 1) * vh ≤ (v : ℤ) * vh :=
      mul_le_mul_of_nonneg_right (by exact_mod_cast huv) hvh.le
    rw [add_mul, one_mul] at h1
    have h2 : min vh (sec.height - (u : ℤ) * vh) ≤ vh := min_le_left _ _
    linarith
  refine ⟨?_, ?_, ?_, ?_⟩
  · -- pairwise disjointness
    intro v1 h1 v2 h2 hne
    rw [mem_gatherViewPortSections] at h1 h2
    obtain ⟨y1, hy1, x1, hx1, rfl⟩ := h1
    obtain ⟨y2, hy2, x2, hx2, rfl⟩ := h2
    rcases Nat.lt_trichotomy y1 y2 with hy | hy | hy
    · exact Or.inr (Or.inr (Or.inl (keyy y1 y2 hy)))
    · subst hy
      rcases Nat.lt_trichotomy x1 x2 with hx | hx | hx
      · exact Or.inl (keyx x1 x2 hx)
      · exact absurd (by rw [hx]) hne
      · exact Or.inr (Or.inl (keyx x2 x1 hx))
    · exact Or.inr (Or.inr (Or.inr (keyy y2 y1 hy)))
  · -- exact cover
    intro px py
    constructor
    · rintro ⟨hpx0, hpxw, hpy0, hpyh⟩
      have hx1 : px / vw * vw ≤ px := Int.ediv_mul_le px hvw.ne'
      have hx2 : px < (px / vw + 1) * vw := Int.lt_ediv_add_one_mul_self px hvw
      rw [add_mul, one_mul] at hx2
      have hx0 : 0 ≤ px / vw := Int.ediv_nonneg hpx0 hvw.le
      have hy1 : py / vh * vh ≤ py := Int.ediv_mul_le py hvh.ne'
      have hy2 : py < (py / vh + 1) * vh := Int.lt_ediv_add_one_mul_self py hvh
      rw [add_mul, one_mul] at hy2
      have hy0 : 0 ≤ py / vh := Int.ediv_nonneg hpy0 hvh.le
      have hxC : px / vw < (C : ℤ) := by
        by_contra hcon
        push_neg at hcon
        have hmul : (C : ℤ) * vw ≤ px / vw * vw := mul_le_mul_of_nonneg_right hcon hvw.le
        linarith
      have hyR : py / vh < (R : ℤ) := by
        by_contra hcon
        push_neg at hcon
        have hmul : (R : ℤ) * vh ≤ py / vh * vh := mul_le_mul_of_nonneg_right hcon hvh.le
        linarith
      have hxcast : (((px / vw).toNat : ℤ)) = px / vw := Int.toNat_of_nonneg hx0
      have hycast : (((py / vh).toNat : ℤ)) = py / vh := Int.toNat_of_nonneg hy0
      have hxNat : (px / vw).toNat < C := by omega
      have hyNat : (py / vh).toNat < R := by omega
      refine ⟨gridCell sec.width sec.height vw vh C index (px / vw).toNat (py / vh).toNat,
        (mem_gatherViewPortSections sec initData index _).mpr
          ⟨(py / vh).toNat, hyNat, (px / vw).toNat, hxNat, rfl⟩, ?_, ?_, ?_, ?_⟩
      · simpa [gridCell, hxcast] using hx1
      · simp only [gridCell, hxcast]
        rcases le_total vw (sec.width - px / vw * vw) with hmin | hmin
        · rw [min_eq_left hmin]
          linarith
        · rw [min_eq_right hmin]
          linarith
      · simpa [gridCell, hycast] using hy1
      · simp only [gridCell, hycast]
        rcases le_total vh (sec.height - py / vh * vh) with hmin | hmin
        · rw [min_eq_left hmin]
          linarith
        · rw [min_eq_right hmin]
          linarith
    · rintro ⟨v, hv, hvx, hvxw, hvy, hvyh⟩
      rw [mem_gatherViewPortSections] at hv
      obtain ⟨y, hy, x, hx, rfl⟩ := hv
      simp only [gridCell] at hvx hvxw hvy hvyh
      have hxnn : (0 : ℤ) ≤ (x : ℤ) * vw := mul_nonneg (by positivity) hvw.le
      have hynn : (0 : ℤ) ≤ (y : ℤ) * vh := mul_nonneg (by positivity) hvh.le
      have hxw : min vw (sec.width - (x : ℤ) * vw) ≤ sec.width - (x : ℤ) * vw :=
        min_le_right _ _
      have hyh : min vh (sec.height - (y : ℤ) * vh) ≤ sec.height - (y : ℤ) * vh :=
        min_le_right _ _
      exact ⟨by linarith, by linarith, by linarith, by linarith⟩
  · rw [gatherViewPortSections_length]
    exact gatherViewPortSections_map_index sec initData index
  · -- global gap-free indices across all sections of a plan
    simp only [gatherDocumentSections] at hsecs
    split_ifs at hsecs with h1 h2 h3 h4
    · obtain rfl : ([] : List Section) = secs := by simpa using hsecs
      simp
    · obtain rfl : ([] : List Section) = secs := by simpa using hsecs
      simp
    · obtain rfl : ([] : List Section) = secs := by simpa using hsecs
      simp
    · rw [Option.some.injEq] at hsecs
      subst hsecs
      exact gatherSectionsGo_flat_index area initData _ _ needsStitching _ 0 0

/-- Witness for C2: a 4×5 section over a 2×3 view-port starting at
index 2, inside a 4×10 document planned with budget 9 (five sections of
height 2): per-call indices, global indices, and cover of pixel (3, 4). -/
theorem gatherViewPortSections_tiling_witness :
    ((gatherViewPortSections ⟨false, 0, 0, 4, 5, []⟩ ⟨⟨4, 10⟩, ⟨2, 3⟩⟩ 2).map
        (fun v => v.index) =
      List.range' 2
        (gatherViewPortSections ⟨false, 0, 0, 4, 5, []⟩ ⟨⟨4, 10⟩, ⟨2, 3⟩⟩ 2).length) ∧
    (((gatherSectionsGo ⟨0, 0, 4, 10⟩ ⟨⟨4, 10⟩, ⟨2, 3⟩⟩ 2 true false 5 0 0).flatMap
        (fun s => s.viewPorts)).map (fun v => v.index) =
      List.range' 0
        ((gatherSectionsGo ⟨0, 0, 4, 10⟩ ⟨⟨4, 10⟩, ⟨2, 3⟩⟩ 2 true false 5 0 0).flatMap
          (fun s => s.viewPorts)).length) ∧
    ((0 ≤ (3 : ℤ) ∧ (3 : ℤ) < 4 ∧ 0 ≤ (4 : ℤ) ∧ (4 : ℤ) < 5) ↔
      ∃ v ∈ gatherViewPortSections ⟨false, 0, 0, 4, 5, []⟩ ⟨⟨4, 10⟩, ⟨2, 3⟩⟩ 2,
        v.x ≤ 3 ∧ 3 < v.x + v.width ∧ v.y ≤ 4 ∧ 4 < v.y + v.height) := by
  have hsh2 : sectionHeightOf ⟨0, 0, 4, 10⟩ ⟨⟨4, 10⟩, ⟨2, 3⟩⟩ 9 false = 2 := by
    norm_num [sectionHeightOf, jsFloor, Bool.false_eq_true]
  have hsecs : gatherDocumentSections ⟨0, 0, 4, 10⟩ ⟨⟨4, 10⟩, ⟨2, 3⟩⟩ 9 false =
      some (gatherSectionsGo ⟨0, 0, 4, 10⟩ ⟨⟨4, 10⟩, ⟨2, 3⟩⟩ 2 true false 5 0 0) := by
    simp only [gatherDocumentSections, hsh2]
    decide
  obtain ⟨hdisj, hunion, hidx, hglob⟩ := gatherViewPortSections_tiling ⟨⟨4, 10⟩, ⟨2, 3⟩⟩
    ⟨false, 0, 0, 4, 5, []⟩ 2 ⟨0, 0, 4, 10⟩ 9 false _
    (by decide) (by decide) (by decide) (by decide) hsecs
  exact ⟨hidx, hglob, hunion 3 4⟩

/-! ## C1 and C8: section coverage and resolution bound -/

/-- Componentwise description of the `j`-th section built by the
`_gatherDocumentSections` loop. -/
theorem gatherSectionsGo_get (area : Area) (initData : InitData) (sectionHeight : ℤ)
    (shift st : Bool) :
    ∀ (n i index j : ℕ)
      (hj : j < (gatherSectionsGo area initData sectionHeight shift st n i index).length),
      ((gatherSectionsGo area initData sectionHeight shift st n i index).get ⟨j, hj⟩).x =
          area.x ∧
        ((gatherSectionsGo area initData sectionHeight shift st n i index).get ⟨j, hj⟩).y =
          area.y + ((i + j : ℕ) : ℤ) * sectionHeight ∧
        ((gatherSectionsGo area initData sectionHeight shift st n i index).get
            ⟨j, hj⟩).width = area.width ∧
        ((gatherSectionsGo area initData sectionHeight shift st n i index).get
            ⟨j, hj⟩).height =
          min sectionHeight (area.height - ((i + j : ℕ) : ℤ) * sectionHeight) := by
  intro n
  induction n with
  | zero =>
    intro i index j hj
    rw [gatherSectionsGo_length] at hj
    omega
  | succ n ih =>
    intro i index j hj
    match j with
    | 0 =>
      refine ⟨rfl, ?_, rfl, ?_⟩ <;> simp [gatherSectionsGo]
    | Nat.succ j =>
      simp only [gatherSectionsGo, Nat.succ_eq_add_one, List.get_cons_succ]
      have harg : i + (j + 1) = i + 1 + j := by omega
      rw [harg]
      exact ih (i + 1) _ j _

/-- C1 (amended): whenever the planner's computed section height is
positive, the returned sections are contiguous top-to-bottom
(`next.y = prev.y + prev.height`), pairwise non-overlapping, of positive
height, and their `(y, height)` ranges cover exactly
`[area.y, area.y + area.height)`. -/
theorem gatherDocumentSections_coverage (area : Area) (initData : InitData)
    (maxImageResolution : ℚ) (needsStitching : Bool) (secs : List Section)
    (hy : 0 ≤ area.height)
    (hsh : 0 < sectionHeightOf area initData maxImageResolution needsStitching)
    (hsecs : gatherDocumentSections area initData maxImageResolution needsStitching =
      some secs) :
    List.Chain' (fun a b => b.y = a.y + a.height) secs ∧
    List.Pairwise (fun a b => a.y + a.height ≤ b.y) secs ∧
    (∀ s ∈ secs, 0 < s.height) ∧
    (∀ t : ℤ, (area.y ≤ t ∧ t < area.y + area.height) ↔
      ∃ s ∈ secs, s.y ≤ t ∧ t < s.y + s.height) := by
  have hwidth : ¬(initData.document.width - area.x = 0) := by
    intro h0
    simp only [sectionHeightOf, h0, Int.cast_zero, div_zero, jsFloor, Int.floor_zero,
      jsFloorDiv, Int.zero_fdiv, zero_mul, ite_self] at hsh
    exact absurd hsh (by omega)
  simp only [gatherDocumentSections] at hsecs
  split_ifs at hsecs with h1 h2 h3
  · omega
  · omega
  · rw [Option.some.injEq] at hsecs
    subst hsecs
    set sh := sectionHeightOf area initData maxImageResolution needsStitching with hshdef
    set c := jsCeilDiv area.height sh with hcdef
    have hA : area.height ≤ c * sh := le_jsCeilDiv_mul _ _ hsh
    have hB : c * sh < area.height + sh := jsCeilDiv_mul_lt _ _ hsh
    have hc0 : 0 ≤ c := jsCeilDiv_nonneg _ _ hsh hy
    have hcc : ((c.toNat : ℕ) : ℤ) = c := Int.toNat_of_nonneg hc0
    set L := gatherSectionsGo area initData sh (c.toNat != 1) needsStitching c.toNat 0 0
      with hLdef
    have hlen : L.length = c.toNat := gatherSectionsGo_length _ _ _ _ _ _ _ _
    have hget : ∀ j (hj : j < L.length),
        (L.get ⟨j, hj⟩).y = area.y + (j : ℤ) * sh ∧
        (L.get ⟨j, hj⟩).height = min sh (area.height - (j : ℤ) * sh) := by
      intro j hj
      have h := gatherSectionsGo_get area initData sh (c.toNat != 1) needsStitching
        c.toNat 0 0 j hj
      exact ⟨by simpa using h.2.1, by simpa using h.2.2.2⟩
    have hjlt : ∀ j : ℕ, j < c.toNat → (j : ℤ) * sh < area.height := by
      intro j hj
      have h1 : (j : ℤ) ≤ c - 1 := by omega
      have h2 : (j : ℤ) * sh ≤ (c - 1) * sh := mul_le_mul_of_nonneg_right h1 hsh.le
      have h3 : (c - 1) * sh = c * sh - sh := by ring
      linarith
    refine ⟨?_, ?_, ?_, ?_⟩
    · rw [List.chain'_iff_get]
      intro j hj
      have hjL : j < L.length := by omega
      have hjL1 : j + 1 < L.length := by omega
      obtain ⟨hy1, hh1⟩ := hget j hjL
      obtain ⟨hy2, hh2⟩ := hget (j + 1) hjL1
      rw [hy2, hy1, hh1]
      have hlt : ((j + 1 : ℕ) : ℤ) * sh < area.height := hjlt (j + 1) (by omega)
      have hmin : min sh (area.height - (j : ℤ) * sh) = sh := by
        apply min_eq_left
        push_cast at hlt
        linarith [hlt]
      rw [hmin]
      push_cast
      ring
    · rw [List.pairwise_iff_get]
      intro a b hab
      obtain ⟨hya, hha⟩ := hget a.1 a.2
      obtain ⟨hyb, hhb⟩ := hget b.1 b.2
      rw [hya, hha, hyb]
      have hmono : ((a.1 : ℤ) + 1) * sh ≤ ((b.1 : ℕ) : ℤ) * sh := by
        apply mul_le_mul_of_nonneg_right _ hsh.le
        have : a.1 < b.1 := hab
        omega
      have hminle : min sh (area.height - (a.1 : ℤ) * sh) ≤ sh := min_le_left _ _
      rw [add_mul, one_mul] at hmono
      linarith
    · intro s hs
      rw [List.mem_iff_get] at hs
      obtain ⟨⟨j, hj⟩, rfl⟩ := hs
      obtain ⟨hyj, hhj⟩ := hget j hj
      rw [hhj]
      have hlt : (j : ℤ) * sh < area.height := hjlt j (by omega)
      exact lt_min hsh (by linarith)
    · intro t
      constructor
      · rintro ⟨ht1, ht2⟩
        have hcpos : 0 < c := by
          by_contra hcon
          push_neg at hcon
          have : c * sh ≤ 0 * sh := mul_le_mul_of_nonneg_right hcon hsh.le
          rw [zero_mul] at this
          linarith
        have hq1 : (t - area.y) / sh * sh ≤ t - area.y :=
          Int.ediv_mul_le _ hsh.ne'
        have hq2 : t - area.y < ((t - area.y) / sh + 1) * sh :=
          Int.lt_ediv_add_one_mul_self _ hsh
        rw [add_mul, one_mul] at hq2
        have hq0 : 0 ≤ (t - area.y) / sh := Int.ediv_nonneg (by omega) hsh.le
        have hqc : (t - area.y) / sh < c := by
          by_contra hcon
          push_neg at hcon
          have : c * sh ≤ (t - area.y) / sh * sh := mul_le_mul_of_nonneg_right hcon hsh.le
          linarith
        have hjcast : ((((t - area.y) / sh).toNat : ℕ) : ℤ) = (t - area.y) / sh :=
          Int.toNat_of_nonneg hq0
        have hjL : ((t - area.y) / sh).toNat < L.length := by omega
        obtain ⟨hyj, hhj⟩ := hget _ hjL
        refine ⟨L.get ⟨((t - area.y) / sh).toNat, hjL⟩, List.get_mem L _ hjL, ?_, ?_⟩
        · rw [hyj, hjcast]
          linarith
        · rw [hyj, hhj, hjcast]
          rcases le_total sh (area.height - (t - area.y) / sh * sh) with hmin | hmin
          · rw [min_eq_left hmin]
            linarith
          · rw [min_eq_right hmin]
            linarith
      · rintro ⟨s, hs, hst1, hst2⟩
        rw [List.mem_iff_get] at hs
        obtain ⟨⟨j, hj⟩, rfl⟩ := hs
        obtain ⟨hyj, hhj⟩ := hget j hj
        rw [hyj] at hst1
        rw [hyj, hhj] at hst2
        have hjnn : (0 : ℤ) ≤ (j : ℤ) * sh := mul_nonneg (by positivity) hsh.le
        have hminr : min sh (area.height - (j : ℤ) * sh) ≤ area.height - (j : ℤ) * sh :=
          min_le_right _ _
        exact ⟨by linarith, by linarith⟩

/-- Counterexample to C1 as stated: the area `⟨0, 0, 2, 3⟩` is validated for
a 2×3 document (non-negative size, fully contained) and the budget `1` is
positive, yet the planner produces no section list at all — the computed
`sectionHeight` is `⌊1 / 2⌋ = 0`, so the source's loop bound
`Math.ceil(3 / 0)` is `Infinity` and the loop never terminates (`none` in
the model), leaving nothing whose ranges could cover `[0, 3)`. -/
theorem gatherDocumentSections_coverage_counterexample :
    ((0 : ℤ) ≤ 0 ∧ (0 : ℤ) < 2 ∧ (0 : ℤ) + 2 ≤ 2 ∧ (0 : ℤ) + 3 ≤ 3 ∧ (0 : ℚ) < 1) ∧
    gatherDocumentSections ⟨0, 0, 2, 3⟩ ⟨⟨2, 3⟩, ⟨1, 1⟩⟩ 1 false = none := by
  refine ⟨by norm_num, ?_⟩
  have hsh0 : sectionHeightOf ⟨0, 0, 2, 3⟩ ⟨⟨2, 3⟩, ⟨1, 1⟩⟩ 1 false = 0 := by
    norm_num [sectionHeightOf, jsFloor, Bool.false_eq_true]
  simp only [gatherDocumentSections, hsh0]
  decide

/-- Witness for the amended C1: the five planned sections of height 2 for a
4×10 document under budget 9 chain contiguously, and pixel row 7 is covered. -/
theorem gatherDocumentSections_coverage_witness :
    List.Chain' (fun a b => b.y = a.y + a.height)
      (gatherSectionsGo ⟨0, 0, 4, 10⟩ ⟨⟨4, 10⟩, ⟨2, 3⟩⟩ 2 true false 5 0 0) ∧
    ((0 : ℤ) ≤ 7 ∧ (7 : ℤ) < 0 + 10 ↔
      ∃ s ∈ gatherSectionsGo ⟨0, 0, 4, 10⟩ ⟨⟨4, 10⟩, ⟨2, 3⟩⟩ 2 true false 5 0 0,
        s.y ≤ 7 ∧ 7 < s.y + s.height) := by
  have hsh2 : sectionHeightOf ⟨0, 0, 4, 10⟩ ⟨⟨4, 10⟩, ⟨2, 3⟩⟩ 9 false = 2 := by
    norm_num [sectionHeightOf, jsFloor, Bool.false_eq_true]
  have hsecs : gatherDocumentSections ⟨0, 0, 4, 10⟩ ⟨⟨4, 10⟩, ⟨2, 3⟩⟩ 9 false =
      some (gatherSectionsGo ⟨0, 0, 4, 10⟩ ⟨⟨4, 10⟩, ⟨2, 3⟩⟩ 2 true false 5 0 0) := by
    simp only [gatherDocumentSections, hsh2]
    decide
  obtain ⟨hchain, hpw, hpos, hcover⟩ := gatherDocumentSections_coverage ⟨0, 0, 4, 10⟩
    ⟨⟨4, 10⟩, ⟨2, 3⟩⟩ 9 false _ (by decide) (by rw [hsh2]; decide) hsecs
  exact ⟨hchain, hcover 7⟩

/-- The stitching adjustment only ever shrinks the computed section height
below its `Math.floor(maxImageResolution / documentWidth)` basis. -/
theorem sectionHeightOf_le (area : Area) (initData : InitData) (maxImageResolution : ℚ)
    (needsStitching : Bool) (hvh : 0 < initData.viewPort.height) :
    sectionHeightOf area initData maxImageResolution needsStitching ≤
      jsFloor (maxImageResolution / ((initData.document.width - area.x : ℤ) : ℚ)) := by
  unfold sectionHeightOf
  by_cases hst : needsStitching = true
  · subst hst
    rw [if_pos rfl]
    unfold jsFloorDiv
    rw [Int.fdiv_eq_ediv _ hvh.le]
    exact Int.ediv_mul_le _ hvh.ne'
  · simp only [Bool.not_eq_true] at hst
    subst hst
    rw [if_neg (by simp)]

/-- C8: for a validated area, every planned section satisfies
`section.width × section.height ≤ maxImageResolution`, the bound the planner
derives on the `documentWidth - area.x` basis; the stitching rounding only
makes the section height smaller, so the bound survives it. -/
theorem gatherDocumentSections_resolutionBound (area : Area) (initData : InitData)
    (maxImageResolution : ℚ) (needsStitching : Bool) (secs : List Section)
    (hxlt : area.x < initData.document.width)
    (_hw0 : 0 ≤ area.width)
    (hcontain : area.x + area.width ≤ initData.document.width)
    (hy : 0 ≤ area.height)
    (hvh : 0 < initData.viewPort.height)
    (hsecs : gatherDocumentSections area initData maxImageResolution needsStitching =
      some secs) :
    ∀ s ∈ secs, ((s.width * s.height : ℤ) : ℚ) ≤ maxImageResolution := by
  simp only [gatherDocumentSections] at hsecs
  split_ifs at hsecs with h1 h2 h3
  · omega
  · rw [Option.some.injEq] at hsecs
    subst hsecs
    intro s hs
    exact absurd hs (List.not_mem_nil s)
  · rw [Option.some.injEq] at hsecs
    subst hsecs
    intro s hs
    exact absurd hs (List.not_mem_nil s)
  · rw [Option.some.injEq] at hsecs
    subst hsecs
    intro s hs
    set sh := sectionHeightOf area initData maxImageResolution needsStitching with hshdef
    have hsh : 0 < sh := by omega
    set c := jsCeilDiv area.height sh with hcdef
    have hB : c * sh < area.height + sh := jsCeilDiv_mul_lt _ _ hsh
    have hc0 : 0 ≤ c := jsCeilDiv_nonneg _ _ hsh hy
    rw [List.mem_iff_get] at hs
    obtain ⟨⟨j, hj⟩, rfl⟩ := hs
    have hcomp := gatherSectionsGo_get area initData sh (c.toNat != 1) needsStitching
      c.toNat 0 0 j hj
    have hwcomp : ((gatherSectionsGo area initData sh (c.toNat != 1) needsStitching
        c.toNat 0 0).get ⟨j, hj⟩).width = area.width := hcomp.2.2.1
    have hhcomp : ((gatherSectionsGo area initData sh (c.toNat != 1) needsStitching
        c.toNat 0 0).get ⟨j, hj⟩).height =
        min sh (area.height - (j : ℤ) * sh) := by
      have h := hcomp.2.2.2
      simpa using h
    rw [hwcomp, hhcomp]
    -- remaining height at section j is positive
    have hjc : j < c.toNat := by
      have := hj
      rw [gatherSectionsGo_length] at this
      exact this
    have hjlt : (j : ℤ) * sh < area.height := by
      have h1 : (j : ℤ) ≤ c - 1 := by omega
      have h2 : (j : ℤ) * sh ≤ (c - 1) * sh := mul_le_mul_of_nonneg_right h1 hsh.le
      have h3 : (c - 1) * sh = c * sh - sh := by ring
      linarith
    have hh0 : 0 ≤ min sh (area.height - (j : ℤ) * sh) :=
      le_min hsh.le (by linarith)
    have hhle : min sh (area.height - (j : ℤ) * sh) ≤ sh := min_le_left _ _
    -- the budget bound on the documentWidth basis
    have hWpos : (0 : ℤ) < initData.document.width - area.x := by omega
    have hWposQ : (0 : ℚ) < ((initData.document.width - area.x : ℤ) : ℚ) := by
      exact_mod_cast hWpos
    have hfl : ((jsFloor (maxImageResolution /
        ((initData.document.width - area.x : ℤ) : ℚ)) : ℤ) : ℚ) ≤
        maxImageResolution / ((initData.document.width - area.x : ℤ) : ℚ) :=
      Int.floor_le _
    have hprod : ((jsFloor (maxImageResolution /
        ((initData.document.width - area.x : ℤ) : ℚ)) : ℤ) : ℚ) *
        ((initData.document.width - area.x : ℤ) : ℚ) ≤ maxImageResolution :=
      (le_div_iff₀ hWposQ).mp hfl
    have hshle : sh ≤ jsFloor (maxImageResolution /
        ((initData.document.width - area.x : ℤ) : ℚ)) :=
      sectionHeightOf_le area initData maxImageResolution needsStitching hvh
    have hZ : area.width * min sh (area.height - (j : ℤ) * sh) ≤
        (initData.document.width - area.x) *
          jsFloor (maxImageResolution / ((initData.document.width - area.x : ℤ) : ℚ)) := by
      calc area.width * min sh (area.height - (j : ℤ) * sh)
          ≤ (initData.document.width - area.x) * min sh (area.height - (j : ℤ) * sh) :=
            mul_le_mul_of_nonneg_right (by omega) hh0
        _ ≤ (initData.document.width - area.x) * sh :=
            mul_le_mul_of_nonneg_left hhle hWpos.le
        _ ≤ (initData.document.width - area.x) *
              jsFloor (maxImageResolution /
                ((initData.document.width - area.x : ℤ) : ℚ)) :=
            mul_le_mul_of_nonneg_left hshle hWpos.le
    have hZQ : ((area.width * min sh (area.height - (j : ℤ) * sh) : ℤ) : ℚ) ≤
        (((initData.document.width - area.x) *
          jsFloor (maxImageResolution /
            ((initData.document.width - area.x : ℤ) : ℚ)) : ℤ) : ℚ) := by
      exact_mod_cast hZ
    calc ((area.width * min sh (area.height - (j : ℤ) * sh) : ℤ) : ℚ)
        ≤ (((initData.document.width - area.x) *
            jsFloor (maxImageResolution /
              ((initData.document.width - area.x : ℤ) : ℚ)) : ℤ) : ℚ) := hZQ
      _ = ((jsFloor (maxImageResolution /
            ((initData.document.width - area.x : ℤ) : ℚ)) : ℤ) : ℚ) *
            ((initData.document.width - area.x : ℤ) : ℚ) := by
          push_cast
          ring
      _ ≤ maxImageResolution := hprod

/-- Witness for C8: the first planned section of the 4×10 document under
budget 9 occupies `4 × 2 = 8 ≤ 9` pixels. -/
theorem gatherDocumentSections_resolutionBound_witness :
    (((4 * 2 : ℤ) : ℚ)) ≤ 9 := by
  have hsh2 : sectionHeightOf ⟨0, 0, 4, 10⟩ ⟨⟨4, 10⟩, ⟨2, 3⟩⟩ 9 false = 2 := by
    norm_num [sectionHeightOf, jsFloor, Bool.false_eq_true]
  have hsecs : gatherDocumentSections ⟨0, 0, 4, 10⟩ ⟨⟨4, 10⟩, ⟨2, 3⟩⟩ 9 false =
      some (gatherSectionsGo ⟨0, 0, 4, 10⟩ ⟨⟨4, 10⟩, ⟨2, 3⟩⟩ 2 true false 5 0 0) := by
    simp only [gatherDocumentSections, hsh2]
    decide
  exact gatherDocumentSections_resolutionBound ⟨0, 0, 4, 10⟩ ⟨⟨4, 10⟩, ⟨2, 3⟩⟩ 9 false _
    (by decide) (by decide) (by decide) (by decide) (by decide) hsecs
    ⟨true, 0, 0, 4, 2, [⟨0, 0, 4, 2, 0⟩]⟩ (by decide)

end Taxi
